import Mathlib

/-!
A shallow embedding of the Recursive Language Model implementation in
`rlm_openrouter.py` (class `REPLEnvironment`, class `RecursiveLM`, and the
parsing logic inside `RecursiveLM.completion`), with theorems checking the
natural-language specification against it.

External effects are made explicit:
* the HTTP transport to the model provider is an oracle `Nat → String`
  giving the content of the n-th successful model call (the code treats
  transport as a blocking request/response function; transport failures
  propagate to the caller and are outside the embedded success path);
* execution of an arbitrary Python snippet by `exec(code, namespace)` is a
  parameter `ExecPy : String → PyStore → PyStore × Option String` returning
  the final execution namespace and the error text of the raised exception,
  if any (mirroring the `try: exec(...) / except Exception as e` structure);
* the mutable `self.call_count` of a `RecursiveLM` instance is threaded as
  an explicit call log, one `(model, depth)` entry per completed API call;
  the counter's value is the log's length.
-/

namespace RLM

/-- Python values that can appear in the REPL variable store. Strings,
integers, `None`, lists and opaque builtin functions cover what the claims
need; further Python types would be further constructors. -/
inductive PyVal where
  | vNone : PyVal
  | vInt : Int → PyVal
  | vStr : String → PyVal
  | vList : List PyVal → PyVal
  | vBuiltin : String → PyVal

mutual

/-- Python `str(v)`: a string renders as itself, `None` as `"None"`, a list
via the `repr` of its elements (string escaping inside `repr` is elided). -/
def PyVal.pyStr : PyVal → String
  | .vNone => "None"
  | .vInt n => toString n
  | .vStr s => s
  | .vList l => "[" ++ String.intercalate ", " (pyReprList l) ++ "]"
  | .vBuiltin n => "<built-in function " ++ n ++ ">"

/-- Python `repr(v)`, as used for elements when a list is rendered. -/
def PyVal.pyRepr : PyVal → String
  | .vNone => "None"
  | .vInt n => toString n
  | .vStr s => "'" ++ s ++ "'"
  | .vList l => "[" ++ String.intercalate ", " (pyReprList l) ++ "]"
  | .vBuiltin n => "<built-in function " ++ n ++ ">"

/-- Helper for the mutual recursion over list elements. -/
def pyReprList : List PyVal → List String
  | [] => []
  | v :: rest => PyVal.pyRepr v :: pyReprList rest

end

/-- Python `type(v).__name__`. -/
def pyTypeName : PyVal → String
  | .vNone => "NoneType"
  | .vInt _ => "int"
  | .vStr _ => "str"
  | .vList _ => "list"
  | .vBuiltin _ => "builtin_function_or_method"

/-- A Python `dict` used as a namespace or variable store: an ordered
association list with unique keys, matching dict insertion-order semantics. -/
abbrev PyStore := List (String × PyVal)

/-- Python `store.get(k)` / `k in store` lookup. -/
def storeLookup (store : PyStore) (k : String) : Option PyVal :=
  match store with
  | [] => none
  | p :: rest => if p.1 = k then some p.2 else storeLookup rest k

/-- Python `store[k] = v`: rebind an existing key in place, else append. -/
def storeSet (store : PyStore) (k : String) (v : PyVal) : PyStore :=
  if store.any (fun p => p.1 == k) then
    store.map (fun p => if p.1 == k then (k, v) else p)
  else store ++ [(k, v)]

/-- Python `store.update(upd)` (also the `{**a, **b}` merge): later keys win. -/
def storeUpdate (store : PyStore) (upd : PyStore) : PyStore :=
  upd.foldl (fun s p => storeSet s p.1 p.2) store

/-- Result dict built by `REPLEnvironment.execute`
(`{"success": ..., "output": ..., "error": ..., "variables": ...}`). -/
structure ExecResult where
  success : Bool
  output : Option String
  error : Option String
  vars : List (String × String)

/-- One entry of `self.execution_history`: the snippet and its result dict. -/
structure ExecutionRecord where
  code : String
  result : ExecResult

/-- Class `REPLEnvironment` (the `verbose` flag only controls printing and is
omitted). `variables` is seeded with the context in `__init__`. -/
structure REPLEnvironment where
  context : PyVal
  vars : PyStore
  execution_history : List ExecutionRecord

/-- Constructor `REPLEnvironment.__init__`. -/
def REPLEnvironment.init (context : PyVal) : REPLEnvironment :=
  { context := context, vars := [("context", context)], execution_history := [] }

/-- Names the `execute` variable-update comprehension filters out, from the
literal list in `rlm_openrouter.py` line 76 ("context" plus the safe
builtins put into the namespace). -/
def reservedNames : List String :=
  ["context", "len", "str", "int", "float", "list", "dict", "range",
   "enumerate", "zip", "sum", "min", "max", "sorted", "re", "json"]

/-- Bindings for the safe builtins placed into every execution namespace. -/
def builtinBindings : PyStore :=
  [("len", .vBuiltin "len"), ("str", .vBuiltin "str"), ("int", .vBuiltin "int"),
   ("float", .vBuiltin "float"), ("list", .vBuiltin "list"),
   ("dict", .vBuiltin "dict"), ("range", .vBuiltin "range"),
   ("enumerate", .vBuiltin "enumerate"), ("zip", .vBuiltin "zip"),
   ("sum", .vBuiltin "sum"), ("min", .vBuiltin "min"), ("max", .vBuiltin "max"),
   ("sorted", .vBuiltin "sorted"), ("re", .vBuiltin "re"), ("json", .vBuiltin "json")]

/-- The namespace dict built at the top of `REPLEnvironment.execute`:
`{"context": self.context, **self.variables, "len": len, ..., "json": json}`. -/
def buildNamespace (env : REPLEnvironment) : PyStore :=
  storeUpdate (storeUpdate [("context", env.context)] env.vars) builtinBindings

/-- Abstract semantics of `exec(code, namespace)`: the namespace after the
attempt and the text of the raised exception, if any. `execute` is proved
correct for every such semantics, so nothing about Python evaluation itself
is assumed. -/
abbrev ExecPy := String → PyStore → PyStore × Option String

/-- Python `str(v)[:200]`, the truncated preview of a variable. -/
def truncPreview (s : String) : String := s.take 200

/-- Method `REPLEnvironment.execute`. On success the store is updated with
every name from the namespace that is not a dunder and not reserved, the
previews are recorded, and `output` is set when a variable `result` exists;
on failure only `error` is set. In both cases exactly one record is appended
to `execution_history`, and the method returns (it never re-raises). -/
def REPLEnvironment.execute (execPy : ExecPy) (env : REPLEnvironment)
    (code : String) : REPLEnvironment × ExecResult :=
  match execPy code (buildNamespace env) with
  | (ns2, none) =>
    let upd := ns2.filter fun p =>
      !(p.1.startsWith "__") && !(reservedNames.contains p.1)
    let vars := storeUpdate env.vars upd
    let res : ExecResult :=
      { success := true
        output := (storeLookup vars "result").map PyVal.pyStr
        error := none
        vars := vars.map fun p => (p.1, truncPreview p.2.pyStr) }
    ({ env with
        vars := vars
        execution_history := env.execution_history ++ [⟨code, res⟩] }, res)
  | (_, some e) =>
    let res : ExecResult :=
      { success := false, output := none, error := some e, vars := [] }
    ({ env with
        execution_history := env.execution_history ++ [⟨code, res⟩] }, res)

/-- Method `REPLEnvironment.get_variable`: `self.variables.get(name)`. -/
def REPLEnvironment.get_variable (env : REPLEnvironment) (name : String) :
    Option PyVal :=
  storeLookup env.vars name

/-- Method `REPLEnvironment.peek`. -/
def REPLEnvironment.peek (env : REPLEnvironment) (n : Nat) : String :=
  match env.context with
  | .vStr s => s.take n
  | .vList l => PyVal.pyStr (.vList (l.take (min 5 l.length)))
  | c => (PyVal.pyStr c).take n

/-! ### The directive grammar

The code finds directives with three regexes:
`re.search(r'FINAL\((.*?)\)', response, re.DOTALL)`,
`re.search(r'FINAL_VAR\((.*?)\)', response)` and
`re.findall(r'```python\n(.*?)\n```', response, re.DOTALL)`.
The patterns are a literal marker, a non-greedy capture and a literal
closer, so `re.search` reduces to: at the leftmost position where the
marker matches and the capture can reach a closer, capture up to the first
closer (with `.` not crossing a newline unless DOTALL). `re.findall`
repeats that from the end of each match. The functions below implement
exactly that. -/

/-- Capture of `(.*?)\)`: the characters up to the first close parenthesis.
`none` when no close parenthesis is reachable (without DOTALL, a newline
also stops `.`). -/
def captureBody (dotAll : Bool) : List Char → Option (List Char)
  | [] => none
  | c :: rest =>
    if c = ')' then some []
    else if !dotAll && c = '\n' then none
    else match captureBody dotAll rest with
      | some cap => some (c :: cap)
      | none => none

/-- Leftmost-match search for `marker(.*?)\)`: scan for the first position
where the marker matches and a capture closes, and return that capture. -/
def reSearch (pat : List Char) (dotAll : Bool) : List Char → Option (List Char)
  | [] => none
  | c :: rest =>
    if pat.isPrefixOf (c :: rest) then
      match captureBody dotAll ((c :: rest).drop pat.length) with
      | some cap => some cap
      | none => reSearch pat dotAll rest
    else reSearch pat dotAll rest

/-- String wrapper for `reSearch`. -/
def pyReSearch (pat : String) (dotAll : Bool) (s : String) : Option String :=
  (reSearch pat.toList dotAll s.toList).map String.mk

/-- Capture of `(.*?)` up to the first occurrence of a closing delimiter,
returning the capture and the remainder after the delimiter. -/
def captureUntil (close : List Char) : List Char → Option (List Char × List Char)
  | [] => none
  | c :: rest =>
    if close.isPrefixOf (c :: rest) then some ([], (c :: rest).drop close.length)
    else match captureUntil close rest with
      | some (cap, rem) => some (c :: cap, rem)
      | none => none

/-- Scan of `re.findall`: each match is restarted after the previous match's
closing delimiter; a position where the opener matches but no closer follows
is skipped. The fuel argument equals the scanned length at the top call and
every step consumes at least one character, so it never runs out; it only
makes the recursion structural. -/
def findAllAux (openPat closePat : List Char) : Nat → List Char → List (List Char)
  | 0, _ => []
  | _, [] => []
  | Nat.succ fuel, c :: rest =>
    if openPat.isPrefixOf (c :: rest) then
      match captureUntil closePat ((c :: rest).drop openPat.length) with
      | some (cap, rem) => cap :: findAllAux openPat closePat fuel rem
      | none => findAllAux openPat closePat fuel rest
    else findAllAux openPat closePat fuel rest

/-- String wrapper for `re.findall` with capture between two delimiters. -/
def pyFindAll (openPat closePat : String) (s : String) : List String :=
  (findAllAux openPat.toList closePat.toList s.toList.length s.toList).map String.mk

/-- Python `str.strip()`: drop ASCII whitespace from both ends. Written
structurally over the character list so that it evaluates by reduction
(Lean's `String.trim`, defined by well-founded recursion, does not). -/
def pyStrip (s : String) : String :=
  String.mk (((s.toList.dropWhile Char.isWhitespace).reverse.dropWhile
    Char.isWhitespace).reverse)

/-- The parsed intent of one model response, in the precedence order the
`completion` loop checks: final answer, final variable reference, code
blocks, or nothing (continue). The payloads carry the `.strip()` the code
applies when it uses a match. -/
inductive Directive where
  | finalAnswer (text : String)
  | finalVarRef (name : String)
  | codeBlocks (snippets : List String)
  | cont
deriving DecidableEq

/-- The directive checks of `RecursiveLM.completion` (lines 237-251), as one
deterministic function of the response text: `FINAL` first, then
`FINAL_VAR`, then fenced ```python blocks, else continue. -/
def parseDirective (response : String) : Directive :=
  match pyReSearch "FINAL(" true response with
  | some cap => .finalAnswer (pyStrip cap)
  | none =>
    match pyReSearch "FINAL_VAR(" false response with
    | some cap => .finalVarRef (pyStrip cap)
    | none =>
      match pyFindAll "```python\n" "\n```" response with
      | [] => .cont
      | bs => .codeBlocks bs

/-! ### The RecursiveLM class -/

/-- Dataclass `RLMConfig`; `api_key`, `base_url` and `verbose` only
configure the external transport and logging and are omitted. -/
structure RLMConfig where
  root_model : String := "openai/gpt-4o"
  recursive_model : String := "openai/gpt-4o-mini"
  max_iterations : Nat := 10
  max_recursive_depth : Nat := 1

/-- One role-tagged entry of the conversation transcript. -/
structure Message where
  role : String
  content : String
deriving DecidableEq

/-- The call log standing for the mutable `self.call_count` of a
`RecursiveLM` instance: one `(model, depth)` entry per completed API call.
`call_count` is the log's length. -/
abbrev CallLog := List (String × Nat)

/-- Method `RecursiveLM._call_llm`, with the HTTP transport replaced by the
oracle: the n-th successful call returns `oracle n`, and `call_count` is
incremented (the log grows by one entry recording the model and the depth
the call was attributed). -/
def call_llm (oracle : Nat → String) (log : CallLog) (_messages : List Message)
    (model : String) (depth : Nat) : String × CallLog :=
  (oracle log.length, log ++ [(model, depth)])

/-- Python `context_subset or repl.context` inside the f-string of
`recursive_lm`: an absent or empty (falsy) subset falls back to the full
context, rendered with `str`. -/
def subsetOrContext (context_subset : Option String) (context : PyVal) : String :=
  match context_subset with
  | some s => if s = "" then context.pyStr else s
  | none => context.pyStr

/-- The closure built by `RecursiveLM._create_recursive_lm_function`: the
captured REPL context and creation depth are explicit arguments. At or past
the depth cap it returns the sentinel without touching the transport or the
counter; below the cap it makes exactly one secondary-model call attributed
depth `depth + 1`. -/
def recursive_lm (cfg : RLMConfig) (oracle : Nat → String) (replContext : PyVal)
    (depth : Nat) (query : String) (context_subset : Option String)
    (log : CallLog) : String × CallLog :=
  if depth ≥ cfg.max_recursive_depth then
    ("Max recursion depth reached", log)
  else
    let messages : List Message :=
      [{ role := "system"
         content := "You are a helpful assistant. Answer the query based on the provided context." },
       { role := "user"
         content := "Query: " ++ query ++ "\n\nContext: " ++
           subsetOrContext context_subset replContext }]
    call_llm oracle log messages cfg.recursive_model (depth + 1)

/-- A chain of `n` nested dispatch attempts: the attempt at depth `d` is
followed by the next attempt at depth `d + 1`, the attribution
`recursive_lm` passes on, threading the shared call log. -/
def chainDispatch (cfg : RLMConfig) (oracle : Nat → String) (replContext : PyVal) :
    Nat → Nat → CallLog → CallLog
  | 0, _, log => log
  | Nat.succ n, d, log =>
    chainDispatch cfg oracle replContext n (d + 1)
      (recursive_lm cfg oracle replContext d "q" none log).2

/-! ### The completion orchestrator -/

/-- The system prompt f-string built at the top of `RecursiveLM.completion`
(verbatim text, with the three interpolations made explicit). -/
def systemPrompt (cfg : RLMConfig) (context : PyVal) (repl : REPLEnvironment) :
    String :=
  "You are a Recursive Language Model (RLM) with access to a Python REPL environment.\n\n" ++
  "The user's context is stored in a variable called 'context'. You can interact with it programmatically.\n\n" ++
  "Available tools:\n" ++
  "1. Execute Python code to analyze, filter, or transform the context\n" ++
  "2. Call recursive_lm(query, context_subset) to spawn sub-queries on context chunks\n" ++
  "3. Use regex, string operations, list comprehension to process context\n\n" ++
  "Context info:\n" ++
  "- Type: " ++ pyTypeName context ++ "\n" ++
  "- Size: " ++ toString (PyVal.pyStr context).length ++ " characters\n" ++
  "- Preview: " ++ repl.peek 200 ++ "\n\n" ++
  "IMPORTANT: You MUST end your response with your final answer in this exact format:\n" ++
  "FINAL(your answer here)\n\n" ++
  "Example workflow:\n" ++
  "1. Write Python code in ```python code blocks to analyze context\n" ++
  "2. Review execution results\n" ++
  "3. When ready, provide FINAL(answer)\n\n" ++
  "You have " ++ toString cfg.max_iterations ++
  " iterations maximum. Be efficient and provide FINAL() as soon as you have the answer."

/-- The transcript `completion` starts from: the system prompt and the
user message `f"Query: {query}"`. -/
def initialMessages (cfg : RLMConfig) (query : String) (context : PyVal)
    (repl : REPLEnvironment) : List Message :=
  [{ role := "system", content := systemPrompt cfg context repl },
   { role := "user", content := "Query: " ++ query }]

/-- A JSON string literal (escaping of special characters elided; no claim
inspects this text). -/
def jsonStr (s : String) : String := "\"" ++ s ++ "\""

/-- JSON rendering of `str | None`. -/
def jsonStrOpt : Option String → String
  | none => "null"
  | some s => jsonStr s

/-- Shape of `json.dumps(exec_result, indent=2)` as interpolated into the
execution-result message (key order as the dict is built; indentation
collapsed; no claim inspects this text). -/
def jsonDumpsExecResult (r : ExecResult) : String :=
  "\x7b \"success\": " ++ (if r.success then "true" else "false") ++
  ", \"output\": " ++ jsonStrOpt r.output ++
  ", \"error\": " ++ jsonStrOpt r.error ++
  ", \"variables\": \x7b" ++
  String.intercalate ", " (r.vars.map fun p => jsonStr p.1 ++ ": " ++ jsonStr p.2) ++
  "\x7d \x7d"

/-- The two messages the code-block loop appends per executed snippet: the
assistant response again, then that snippet's execution result. -/
def execResultMessages (response : String) (res : ExecResult) : List Message :=
  [{ role := "assistant", content := response },
   { role := "user", content := "Execution result: " ++ jsonDumpsExecResult res }]

/-- The `for code in code_blocks` loop (lines 252-265): each snippet is
executed, then the assistant response and that snippet's execution-result
message are appended to the transcript. (The `if "recursive_lm" in code`
branch and its `else` run the identical `repl.execute(code)`, so the
conditional is dropped.) Note the assistant response is appended inside the
loop, once per snippet. -/
def runBlocks (execPy : ExecPy) (response : String) :
    List String → REPLEnvironment → List Message → REPLEnvironment × List Message
  | [], repl, messages => (repl, messages)
  | code :: rest, repl, messages =>
    let (repl2, exec_result) := REPLEnvironment.execute execPy repl code
    let messages2 := messages ++ execResultMessages response exec_result
    runBlocks execPy response rest repl2 messages2

/-- What one loop iteration does with a parsed response: either the loop
breaks with a final answer, or it continues with an updated sandbox and
transcript. -/
inductive StepResult where
  | finished (answer : String)
  | looping (repl : REPLEnvironment) (messages : List Message)

/-- The body of the `while` loop after the primary-model call (lines
237-272): resolve a final directive and break, or execute the code blocks,
or append the continue nudge. On a final directive the sandbox and the
transcript are left as they were (the final assistant turn is not
appended). -/
def processResponse (execPy : ExecPy) (repl : REPLEnvironment)
    (messages : List Message) (response : String) : StepResult :=
  match parseDirective response with
  | .finalAnswer a => .finished a
  | .finalVarRef n =>
    .finished (PyVal.pyStr ((REPLEnvironment.get_variable repl n).getD .vNone))
  | .codeBlocks bs =>
    let (repl2, messages2) := runBlocks execPy response bs repl messages
    .looping repl2 messages2
  | .cont =>
    .looping repl (messages ++
      [{ role := "assistant", content := response },
       { role := "user"
         content := "Continue with your analysis or provide FINAL(answer)." }])

/-- The `while iterations < self.config.max_iterations and final_answer is
None` loop. `remaining` is `max_iterations - iterations`, which makes the
recursion structural: the loop is entered while `remaining > 0` and each
pass increments `iterations` and decrements `remaining`. Returns the final
sandbox, transcript, iteration count, call log, and `final_answer`. -/
def completionLoopAux (cfg : RLMConfig) (oracle : Nat → String) (execPy : ExecPy) :
    Nat → REPLEnvironment → List Message → Nat → CallLog →
    REPLEnvironment × List Message × Nat × CallLog × Option String
  | 0, repl, messages, iterations, log => (repl, messages, iterations, log, none)
  | Nat.succ remaining, repl, messages, iterations, log =>
    let (response, log2) := call_llm oracle log messages cfg.root_model 0
    match processResponse execPy repl messages response with
    | .finished a => (repl, messages, iterations + 1, log2, some a)
    | .looping repl2 messages2 =>
      completionLoopAux cfg oracle execPy remaining repl2 messages2 (iterations + 1) log2

/-- The dict `completion` returns. `total_calls` is `self.call_count`, the
length of the instance's call log at return time. -/
structure CompletionResult where
  answer : String
  iterations : Nat
  repl_history : List ExecutionRecord
  total_calls : Nat
  messages : List Message

/-- Python `final_answer or "No final answer provided within iteration
limit"`: `None` and the empty string (both falsy) fall back to the
sentinel. -/
def pyOrDefault : Option String → String → String
  | none, d => d
  | some s, d => if s = "" then d else s

/-- Method `RecursiveLM.completion`. The instance's call log (its
`call_count`) is taken and returned explicitly: the constructor zeroes it
once per instance, not per `completion` call. -/
def completion (cfg : RLMConfig) (oracle : Nat → String) (execPy : ExecPy)
    (query : String) (context : PyVal) (log : CallLog) :
    CompletionResult × CallLog :=
  let repl := REPLEnvironment.init context
  let messages := initialMessages cfg query context repl
  let out := completionLoopAux cfg oracle execPy cfg.max_iterations repl messages 0 log
  ({ answer := pyOrDefault out.2.2.2.2 "No final answer provided within iteration limit"
     iterations := out.2.2.1
     repl_history := out.1.execution_history
     total_calls := out.2.2.2.1.length
     messages := out.2.1 }, out.2.2.2.1)

/-- The `final_answer` variable as the loop left it: `none` exactly when the
loop ended with no terminal directive parsed. -/
def completionFinal (cfg : RLMConfig) (oracle : Nat → String) (execPy : ExecPy)
    (query : String) (context : PyVal) (log : CallLog) : Option String :=
  (completionLoopAux cfg oracle execPy cfg.max_iterations
    (REPLEnvironment.init context)
    (initialMessages cfg query context (REPLEnvironment.init context)) 0 log).2.2.2.2

/-! ### Concrete fixtures used by witnesses and counterexamples -/

/-- The default configuration, as the dataclass defaults give it. -/
def cfgDefault : RLMConfig := {}

/-- A snippet semantics that binds nothing and never raises. -/
def execPyId : ExecPy := fun _ ns => (ns, none)

/-- A snippet semantics that raises after writing a partial binding into the
execution namespace, like `x = 1` followed by a raising statement. -/
def execPyMut : ExecPy := fun _ ns => (storeSet ns "x" (.vInt 1), some "boom")

/-- A snippet semantics that raises without binding anything. -/
def execPyBoom : ExecPy := fun _ ns => (ns, some "division by zero")

/-- A fresh sandbox over a small string context. -/
def env0 : REPLEnvironment := REPLEnvironment.init (.vStr "c")

/-- A model response carrying two fenced python snippets and no directive
marker. -/
def respTwoBlocks : String := "```python\nx = 1\n```\n\n```python\ny = 2\n```"

/-- The transcript length after one loop step that keeps looping (0 when
the step finished instead). -/
def stepMessageCount : StepResult → Nat
  | .finished _ => 0
  | .looping _ messages => messages.length

/-! ### Helper lemmas (shared between claims) -/

/-- Setting one key does not change the lookup of a different key. -/
theorem storeLookup_storeSet_ne (s : PyStore) (k2 : String) (v : PyVal)
    (k : String) (h : k2 ≠ k) :
    storeLookup (storeSet s k2 v) k = storeLookup s k := by
  have hmap : ∀ t : PyStore,
      storeLookup (t.map fun p => if p.1 == k2 then (k2, v) else p) k
        = storeLookup t k := by
    intro t
    induction t with
    | nil => rfl
    | cons p rest ih =>
      simp only [List.map_cons]
      by_cases hp : p.1 == k2
      · have hp1 : p.1 = k2 := by simpa using hp
        rw [if_pos hp]
        simp only [storeLookup]
        rw [if_neg h, if_neg (hp1 ▸ h)]
        exact ih
      · rw [if_neg hp]
        simp only [storeLookup]
        by_cases hpk : p.1 = k
        · rw [if_pos hpk, if_pos hpk]
        · rw [if_neg hpk, if_neg hpk]
          exact ih
  have happ : ∀ t : PyStore,
      storeLookup (t ++ [(k2, v)]) k = storeLookup t k := by
    intro t
    induction t with
    | nil => simp [storeLookup, h]
    | cons p rest ih =>
      simp only [List.cons_append, storeLookup]
      by_cases hpk : p.1 = k
      · rw [if_pos hpk, if_pos hpk]
      · rw [if_neg hpk, if_neg hpk]
        exact ih
  unfold storeSet
  by_cases hmem : s.any (fun p => p.1 == k2)
  · rw [if_pos hmem]
    exact hmap s
  · rw [if_neg hmem]
    exact happ s

/-- Updating with a dict that does not bind a key does not change that
key's lookup. -/
theorem storeLookup_storeUpdate_none (upd : PyStore) (s : PyStore) (k : String)
    (h : storeLookup upd k = none) :
    storeLookup (storeUpdate s upd) k = storeLookup s k := by
  induction upd generalizing s with
  | nil => rfl
  | cons p rest ih =>
    simp only [storeLookup] at h
    by_cases hp : p.1 = k
    · rw [if_pos hp] at h
      exact absurd h (by simp)
    · rw [if_neg hp] at h
      show storeLookup (storeUpdate (storeSet s p.1 p.2) rest) k = storeLookup s k
      rw [ih (storeSet s p.1 p.2) h, storeLookup_storeSet_ne s p.1 p.2 k hp]

/-- With DOTALL, the capture of `(.*?)\)` on `body ++ ')' :: post` is exactly
`body` when `body` itself has no close parenthesis. -/
theorem captureBody_dotAll_append (body post : List Char) (h : ')' ∉ body) :
    captureBody true (body ++ ')' :: post) = some body := by
  induction body with
  | nil => simp [captureBody]
  | cons c rest ih =>
    have hc : c ≠ ')' := by
      rintro rfl
      exact h (List.mem_cons_self _ _)
    have hrest : ')' ∉ rest := fun hmem => h (List.mem_cons_of_mem _ hmem)
    simp [captureBody, hc, ih hrest]

/-- Scanning a text in which the pattern matches at no position strictly
inside the prefix `pre` is the same as scanning past `pre`. -/
theorem reSearch_skip (pat : List Char) (dotAll : Bool) :
    ∀ (pre rest : List Char),
      (∀ i, i < pre.length → pat.isPrefixOf (pre.drop i ++ rest) = false) →
      reSearch pat dotAll (pre ++ rest) = reSearch pat dotAll rest := by
  intro pre
  induction pre with
  | nil => intro rest _; rfl
  | cons c pre ih =>
    intro rest h
    have h0 : pat.isPrefixOf (c :: (pre ++ rest)) = false := by
      have := h 0 (by simp)
      simpa using this
    have htail : ∀ i, i < pre.length → pat.isPrefixOf (pre.drop i ++ rest) = false := by
      intro i hi
      have := h (i + 1) (by simpa using Nat.succ_lt_succ hi)
      simpa using this
    calc reSearch pat dotAll ((c :: pre) ++ rest)
        = reSearch pat dotAll (pre ++ rest) := by
          simp only [List.cons_append, List.append_eq, reSearch, h0, Bool.false_eq_true, if_false]
      _ = reSearch pat dotAll rest := ih rest htail

/-- At a position where the (nonempty) pattern matches and the capture
closes, the scan returns that capture. -/
theorem reSearch_at_match (pat xs : List Char) (dotAll : Bool) (cap : List Char)
    (hne : pat ≠ []) (hcap : captureBody dotAll xs = some cap) :
    reSearch pat dotAll (pat ++ xs) = some cap := by
  cases pat with
  | nil => exact absurd rfl hne
  | cons p pr =>
    have hpref : (p :: pr).isPrefixOf (p :: (pr ++ xs)) = true := by
      rw [List.isPrefixOf_iff_prefix]
      exact List.cons_append p pr xs ▸ List.prefix_append (p :: pr) xs
    have hdrop : (p :: (pr ++ xs)).drop (p :: pr).length = xs := by
      simp only [List.length_cons, List.drop_succ_cons]
      exact List.drop_left pr xs
    simp only [List.cons_append, List.append_eq, reSearch, hpref, if_true, hdrop, hcap]

/-- Both branches of `execute` append exactly the returned record to the
history. -/
theorem execute_history (execPy : ExecPy) (env : REPLEnvironment) (code : String) :
    (REPLEnvironment.execute execPy env code).1.execution_history
      = env.execution_history ++ [⟨code, (REPLEnvironment.execute execPy env code).2⟩] := by
  rcases hx : execPy code (buildNamespace env) with ⟨ns2, err⟩
  unfold REPLEnvironment.execute
  rw [hx]
  cases err <;> rfl

/-! ### Claims -/

/-- **C1** — code bug. The claim says a snippet executed by the sandbox can
call `recursive_lm` as a bound name in its execution namespace. The code
contradicts its own system prompt (whose text instructs the model to "Call
recursive_lm(query, context_subset)"): `completion` never calls
`_create_recursive_lm_function`, so the closure is never injected. First
conjunct: whenever the variable store does not bind `recursive_lm`, neither
does the execution namespace `execute` builds from it (context binding,
stored variables, safe builtins) — so only a snippet's own assignment could
ever bind the name, never the dispatcher closure. Second conjunct: in the
fresh sandbox every `completion` call starts from, the name is unbound, so
a first snippet calling `recursive_lm` raises `NameError` instead of
dispatching to the secondary model. -/
theorem claim_C1_dispatcher_not_exposed :
    (∀ env : REPLEnvironment, storeLookup env.vars "recursive_lm" = none →
      storeLookup (buildNamespace env) "recursive_lm" = none)
    ∧ (∀ ctx : PyVal,
      storeLookup (buildNamespace (REPLEnvironment.init ctx)) "recursive_lm" = none) := by
  have hbuiltins : storeLookup builtinBindings "recursive_lm" = none := by rfl
  have key : ∀ env : REPLEnvironment, storeLookup env.vars "recursive_lm" = none →
      storeLookup (buildNamespace env) "recursive_lm" = none := by
    intro env henv
    unfold buildNamespace
    rw [storeLookup_storeUpdate_none builtinBindings _ _ hbuiltins,
      storeLookup_storeUpdate_none env.vars _ _ henv]
    rfl
  refine ⟨key, fun ctx => key (REPLEnvironment.init ctx) ?_⟩
  show storeLookup [("context", ctx)] "recursive_lm" = none
  rfl

/-- Witness for C1: the fresh sandbox over a concrete context has no
`recursive_lm` in its execution namespace. -/
theorem claim_C1_dispatcher_not_exposed_witness :
    storeLookup (buildNamespace env0) "recursive_lm" = none :=
  claim_C1_dispatcher_not_exposed.1 env0 (by rfl)

/-- **C2** — confirmed. A dispatch at depth `d ≥ max_recursive_depth`
returns the fixed sentinel with the call log untouched (no model call, no
counter increment); a dispatch at `d < max_recursive_depth` grows the log by
exactly one secondary-model call attributed depth `d + 1`; and a chain of
nested dispatch attempts starting at depth 0 never makes more than
`max_recursive_depth` calls. -/
theorem claim_C2_depth_cap :
    (∀ (cfg : RLMConfig) (oracle : Nat → String) (ctx : PyVal) (d : Nat)
        (q : String) (cs : Option String) (log : CallLog),
        cfg.max_recursive_depth ≤ d →
        recursive_lm cfg oracle ctx d q cs log = ("Max recursion depth reached", log))
    ∧ (∀ (cfg : RLMConfig) (oracle : Nat → String) (ctx : PyVal) (d : Nat)
        (q : String) (cs : Option String) (log : CallLog),
        d < cfg.max_recursive_depth →
        (recursive_lm cfg oracle ctx d q cs log).2
          = log ++ [(cfg.recursive_model, d + 1)])
    ∧ (∀ (cfg : RLMConfig) (oracle : Nat → String) (ctx : PyVal) (n : Nat),
        (chainDispatch cfg oracle ctx n 0 []).length ≤ cfg.max_recursive_depth) := by
  have hblocked : ∀ (cfg : RLMConfig) (oracle : Nat → String) (ctx : PyVal) (d : Nat)
      (q : String) (cs : Option String) (log : CallLog),
      cfg.max_recursive_depth ≤ d →
      recursive_lm cfg oracle ctx d q cs log = ("Max recursion depth reached", log) := by
    intro cfg oracle ctx d q cs log h
    simp [recursive_lm, h]
  have hcall : ∀ (cfg : RLMConfig) (oracle : Nat → String) (ctx : PyVal) (d : Nat)
      (q : String) (cs : Option String) (log : CallLog),
      d < cfg.max_recursive_depth →
      (recursive_lm cfg oracle ctx d q cs log).2
        = log ++ [(cfg.recursive_model, d + 1)] := by
    intro cfg oracle ctx d q cs log h
    simp [recursive_lm, Nat.not_le.mpr h, call_llm]
  refine ⟨hblocked, hcall, ?_⟩
  intro cfg oracle ctx n
  have key : ∀ (n d : Nat) (log : CallLog),
      (chainDispatch cfg oracle ctx n d log).length
        ≤ log.length + (cfg.max_recursive_depth - d) := by
    intro n
    induction n with
    | zero => intro d log; simp [chainDispatch]
    | succ n ih =>
      intro d log
      by_cases hd : cfg.max_recursive_depth ≤ d
      · have h1 := hblocked cfg oracle ctx d "q" none log hd
        have h2 := ih (d + 1) log
        simp only [chainDispatch, h1]
        omega
      · have h1 := hcall cfg oracle ctx d "q" none log (Nat.lt_of_not_le hd)
        have h2 := ih (d + 1) (log ++ [(cfg.recursive_model, d + 1)])
        simp only [chainDispatch, h1]
        simp only [List.length_append, List.length_cons, List.length_nil] at h2
        omega
  have := key n 0 []
  simpa using this

/-- Witness for C2 at the default configuration (`max_recursive_depth = 1`):
the dispatch at depth 1 is blocked with the log untouched, the dispatch at
depth 0 makes one call to the secondary model at depth 1, and a chain of 5
nested attempts makes at most 1 call. -/
theorem claim_C2_depth_cap_witness :
    recursive_lm cfgDefault (fun _ => "sub") (.vStr "c") 1 "q" none []
      = ("Max recursion depth reached", [])
    ∧ (recursive_lm cfgDefault (fun _ => "sub") (.vStr "c") 0 "q" none []).2
      = [("openai/gpt-4o-mini", 1)]
    ∧ (chainDispatch cfgDefault (fun _ => "sub") (.vStr "c") 5 0 []).length ≤ 1 :=
  ⟨claim_C2_depth_cap.1 cfgDefault (fun _ => "sub") (.vStr "c") 1 "q" none []
      (by decide),
   claim_C2_depth_cap.2.1 cfgDefault (fun _ => "sub") (.vStr "c") 0 "q" none []
      (by decide),
   claim_C2_depth_cap.2.2 cfgDefault (fun _ => "sub") (.vStr "c") 5⟩

/-- **C8** — confirmed. Every `execute` call appends exactly one record (the
one it returns) to the execution history, whatever the snippet semantics
did; and when the snippet raises, the error text is captured in that record
with the success flag false, while `execute` still returns (it is a total
function of the snippet outcome — the exception is not propagated). -/
theorem claim_C8_execute_record (execPy : ExecPy) (env : REPLEnvironment)
    (code : String) :
    (REPLEnvironment.execute execPy env code).1.execution_history
      = env.execution_history ++ [⟨code, (REPLEnvironment.execute execPy env code).2⟩]
    ∧ ∀ e : String, (execPy code (buildNamespace env)).2 = some e →
        (REPLEnvironment.execute execPy env code).2.error = some e
        ∧ (REPLEnvironment.execute execPy env code).2.success = false := by
  refine ⟨execute_history execPy env code, ?_⟩
  intro e he
  rcases hx : execPy code (buildNamespace env) with ⟨ns2, err⟩
  rw [hx] at he
  unfold REPLEnvironment.execute
  rw [hx]
  cases err with
  | none => exact absurd he (by simp)
  | some e2 =>
    simp only [Option.some.injEq] at he
    subst he
    exact ⟨rfl, rfl⟩

/-- Witness for C8: a raising snippet appends one record carrying the error
text, and `execute` returns it. -/
theorem claim_C8_execute_record_witness :
    (REPLEnvironment.execute execPyBoom env0 "1/0").1.execution_history.length = 1
    ∧ (REPLEnvironment.execute execPyBoom env0 "1/0").2.error
        = some "division by zero"
    ∧ (REPLEnvironment.execute execPyBoom env0 "1/0").2.success = false := by
  have h := claim_C8_execute_record execPyBoom env0 "1/0"
  exact ⟨by rw [h.1]; rfl, (h.2 "division by zero" rfl).1,
    (h.2 "division by zero" rfl).2⟩

/-- **C10** — confirmed. When an executed snippet fails (the returned
record's success flag is false), the variable store is exactly what it was
before the call: the `self.variables.update(...)` merge sits after `exec` in
the `try` block, so a raising snippet never adds, removes or rebinds a
store name (snippet effects land in the discarded namespace dict). -/
theorem claim_C10_store_unchanged (execPy : ExecPy) (env : REPLEnvironment)
    (code : String)
    (h : (REPLEnvironment.execute execPy env code).2.success = false) :
    (REPLEnvironment.execute execPy env code).1.vars = env.vars := by
  rcases hx : execPy code (buildNamespace env) with ⟨ns2, err⟩
  unfold REPLEnvironment.execute at h ⊢
  rw [hx] at h ⊢
  cases err with
  | none => simp at h
  | some e => rfl

/-- Witness for C10: a snippet that binds `x` into the namespace and then
raises leaves the store exactly as seeded. -/
theorem claim_C10_store_unchanged_witness :
    (REPLEnvironment.execute execPyMut env0 "x = 1\nraise ValueError(x)").1.vars
      = env0.vars
    ∧ (REPLEnvironment.execute execPyMut env0 "x = 1\nraise ValueError(x)").2.success
      = false :=
  ⟨claim_C10_store_unchanged execPyMut env0 "x = 1\nraise ValueError(x)" (by rfl),
   by rfl⟩

/-- **C3** — counterexample. The claim says the parsed final answer runs to
the close parenthesis *matching* the first `FINAL(`. The regex
`FINAL\((.*?)\)` is non-greedy: it stops at the *first* close parenthesis.
On `FINAL((a))` the matching close gives `(a)`, but the code parses `(a`. -/
theorem claim_C3_counterexample :
    parseDirective "FINAL((a))" = .finalAnswer "(a"
    ∧ parseDirective "FINAL((a))" ≠ .finalAnswer "(a)" := by
  constructor
  · decide
  · decide

/-- **C3** — the amended claim. For every response of the form
`pre ++ "FINAL(" ++ body ++ ")" ++ post` in which `pre` contains no earlier
(or straddling) match of `FINAL(` and `body` contains no close parenthesis,
the parsed directive is the final answer `body`, trimmed of surrounding
whitespace — even when `body` spans multiple lines or contains open
parentheses. (Amendment forced by the counterexample: the capture runs to
the *first* close parenthesis after `FINAL(`, not to the matching one, so
the verbatim-contents guarantee holds only while the contents contain no
close parenthesis.) -/
theorem claim_C3_first_close (pre body post : List Char)
    (hpre : ∀ i, i < pre.length →
      "FINAL(".toList.isPrefixOf
        (pre.drop i ++ ("FINAL(".toList ++ (body ++ ')' :: post))) = false)
    (hbody : ')' ∉ body) :
    parseDirective (String.mk (pre ++ ("FINAL(".toList ++ (body ++ ')' :: post))))
      = .finalAnswer (pyStrip (String.mk body)) := by
  have h1 : reSearch "FINAL(".toList true
      (pre ++ ("FINAL(".toList ++ (body ++ ')' :: post))) = some body := by
    rw [reSearch_skip "FINAL(".toList true pre _ hpre]
    exact reSearch_at_match _ _ _ _ (by decide)
      (captureBody_dotAll_append body post hbody)
  have h2 : (String.mk (pre ++ ("FINAL(".toList ++ (body ++ ')' :: post)))).toList
      = pre ++ ("FINAL(".toList ++ (body ++ ')' :: post)) := rfl
  unfold parseDirective pyReSearch
  rw [h2, h1]
  rfl

/-- Witness for C3 (amended): prose before the marker, a body with leading
and trailing blanks, an embedded newline and an open parenthesis, and a
trailing close parenthesis plus a second marker after it. -/
theorem claim_C3_first_close_witness :
    parseDirective (String.mk ("We conclude: ".toList ++
        ("FINAL(".toList ++ (" it is\n(maybe ".toList ++ ')' :: " tail) FINAL(x)".toList))))
      = .finalAnswer "it is\n(maybe" := by
  have h := claim_C3_first_close "We conclude: ".toList " it is\n(maybe ".toList
    " tail) FINAL(x)".toList (by decide) (by decide)
  rw [h]
  decide

/-- **C4** — confirmed. Parsing is a deterministic function of the response
text; whenever the `FINAL(` search succeeds with capture `cap`, the parsed
directive is `FinalAnswer cap.trim` regardless of anything else in the
response; and on such a response the orchestrator loop terminates in that
iteration with that answer, leaving the sandbox (so: executing no code
fence) and the transcript untouched, after exactly the one primary call it
already made. -/
theorem claim_C4_final_precedence :
    (∀ r1 r2 : String, r1 = r2 → parseDirective r1 = parseDirective r2)
    ∧ (∀ response cap : String,
        pyReSearch "FINAL(" true response = some cap →
        parseDirective response = .finalAnswer (pyStrip cap))
    ∧ (∀ (cfg : RLMConfig) (oracle : Nat → String) (execPy : ExecPy)
        (remaining : Nat) (repl : REPLEnvironment) (messages : List Message)
        (iterations : Nat) (log : CallLog) (cap : String),
        pyReSearch "FINAL(" true (oracle log.length) = some cap →
        completionLoopAux cfg oracle execPy (remaining + 1) repl messages iterations log
          = (repl, messages, iterations + 1, log ++ [(cfg.root_model, 0)],
             some (pyStrip cap))) := by
  have hparse : ∀ response cap : String,
      pyReSearch "FINAL(" true response = some cap →
      parseDirective response = .finalAnswer (pyStrip cap) := by
    intro response cap h
    unfold parseDirective
    rw [h]
  refine ⟨fun r1 r2 h => h ▸ rfl, hparse, ?_⟩
  intro cfg oracle execPy remaining repl messages iterations log cap h
  have hstep : processResponse execPy repl messages (oracle log.length)
      = .finished (pyStrip cap) := by
    unfold processResponse
    rw [hparse (oracle log.length) cap h]
  simp only [completionLoopAux, call_llm, hstep]

/-- Witness for C4: a response holding both a code fence and a `FINAL`
marker terminates the loop with the `FINAL` contents, the sandbox untouched
and the transcript unchanged. -/
theorem claim_C4_final_precedence_witness :
    completionLoopAux cfgDefault
        (fun _ => "Let me compute.\n```python\nx = 1\n```\nFINAL(42)")
        execPyId 1 env0 [] 0 []
      = (env0, [], 1, [("openai/gpt-4o", 0)], some "42")
    ∧ parseDirective "Let me compute.\n```python\nx = 1\n```\nFINAL(42)"
      = .finalAnswer "42" := by
  have h : pyReSearch "FINAL(" true
      "Let me compute.\n```python\nx = 1\n```\nFINAL(42)" = some "42" := by decide
  have h1 := claim_C4_final_precedence.2.2 cfgDefault
    (fun _ => "Let me compute.\n```python\nx = 1\n```\nFINAL(42)")
    execPyId 0 env0 [] 0 [] "42" h
  have h2 := claim_C4_final_precedence.2.1
    "Let me compute.\n```python\nx = 1\n```\nFINAL(42)" "42" h
  exact ⟨h1, h2⟩

/-- Per-snippet bookkeeping of the code-block loop: executing `bs` grows the
transcript by two messages per snippet and appends one history record per
snippet, in order. -/
theorem runBlocks_spec (execPy : ExecPy) (response : String) :
    ∀ (bs : List String) (repl : REPLEnvironment) (messages : List Message),
      ((runBlocks execPy response bs repl messages).2).length
          = messages.length + 2 * bs.length
      ∧ ((runBlocks execPy response bs repl messages).1).execution_history.map
            (fun r => r.code)
          = repl.execution_history.map (fun r => r.code) ++ bs := by
  intro bs
  induction bs with
  | nil =>
    intro repl messages
    constructor <;> simp [runBlocks]
  | cons code rest ih =>
    intro repl messages
    rcases hx : REPLEnvironment.execute execPy repl code with ⟨repl2, res⟩
    have hist : repl2.execution_history = repl.execution_history ++ [⟨code, res⟩] := by
      have h := execute_history execPy repl code
      rw [hx] at h
      exact h
    have hrec := ih repl2 (messages ++ execResultMessages response res)
    simp only [runBlocks, hx]
    constructor
    · rw [hrec.1]
      simp only [List.length_append, List.length_cons, execResultMessages,
        List.length_nil]
      omega
    · rw [hrec.2, hist]
      simp [List.map_append]

/-- **C5** — the amended claim. For every response whose directive is
`CodeBlocks` with `k` snippets, every snippet is executed through the
sandbox in order (the history gains exactly those `k` records), and the
transcript grows by exactly `2k` messages: the assistant response is
re-appended once per snippet, each copy followed by that snippet's
execution-result message. (Amendment forced by the counterexample: the code
appends the assistant response inside the per-snippet loop, so the
transcript grows by `2k`, not by `k + 1` with a single assistant copy.) -/
theorem claim_C5_transcript_growth (execPy : ExecPy) (repl : REPLEnvironment)
    (messages : List Message) (response : String) (bs : List String)
    (h : parseDirective response = .codeBlocks bs) :
    ∃ (repl2 : REPLEnvironment) (messages2 : List Message),
      processResponse execPy repl messages response = .looping repl2 messages2
      ∧ messages2.length = messages.length + 2 * bs.length
      ∧ repl2.execution_history.map (fun r => r.code)
          = repl.execution_history.map (fun r => r.code) ++ bs := by
  rcases hr : runBlocks execPy response bs repl messages with ⟨repl2, messages2⟩
  have hspec := runBlocks_spec execPy response bs repl messages
  rw [hr] at hspec
  refine ⟨repl2, messages2, ?_, hspec.1, hspec.2⟩
  simp only [processResponse, h, hr]

/-- Witness for C5 (amended): two snippets grow an empty transcript to 4
messages and the history to those two snippets in order. -/
theorem claim_C5_transcript_growth_witness :
    ∃ (repl2 : REPLEnvironment) (messages2 : List Message),
      processResponse execPyId env0 [] respTwoBlocks = .looping repl2 messages2
      ∧ messages2.length = 4
      ∧ repl2.execution_history.map (fun r => r.code) = ["x = 1", "y = 2"] := by
  obtain ⟨repl2, messages2, hp, hlen, hmap⟩ :=
    claim_C5_transcript_growth execPyId env0 [] respTwoBlocks ["x = 1", "y = 2"]
      (by decide)
  refine ⟨repl2, messages2, hp, by simpa using hlen, ?_⟩
  rw [hmap]
  rfl

/-- **C5** — counterexample. The claim predicts `k + 1` transcript messages
for `k` snippets (assistant response appended once). On a response with two
snippets the transcript grows by 4 messages, not 3: the assistant response
is appended once per snippet. -/
theorem claim_C5_counterexample :
    parseDirective respTwoBlocks = .codeBlocks ["x = 1", "y = 2"]
    ∧ stepMessageCount (processResponse execPyId env0 [] respTwoBlocks) = 4
    ∧ (4 : Nat) ≠ 2 + 1 := by
  refine ⟨by decide, by rfl, by decide⟩

/-- Call-log bookkeeping of the main loop: the log only grows, by one
primary-model call (root model, depth 0) per iteration used, and by at most
`remaining` entries. -/
theorem completionLoopAux_log (cfg : RLMConfig) (oracle : Nat → String)
    (execPy : ExecPy) :
    ∀ (remaining : Nat) (repl : REPLEnvironment) (messages : List Message)
      (iterations : Nat) (log : CallLog),
      ∃ d : CallLog,
        (completionLoopAux cfg oracle execPy remaining repl messages
            iterations log).2.2.2.1 = log ++ d
        ∧ (completionLoopAux cfg oracle execPy remaining repl messages
            iterations log).2.2.1 = iterations + d.length
        ∧ d.length ≤ remaining
        ∧ ∀ e ∈ d, e = (cfg.root_model, 0) := by
  intro remaining
  induction remaining with
  | zero =>
    intro repl messages iterations log
    exact ⟨[], by simp [completionLoopAux], by simp [completionLoopAux],
      by simp, by simp⟩
  | succ remaining ih =>
    intro repl messages iterations log
    cases hstep : processResponse execPy repl messages (oracle log.length) with
    | finished a =>
      refine ⟨[(cfg.root_model, 0)], ?_, ?_, by simp, by simp⟩
      · simp only [completionLoopAux, call_llm, hstep]
      · simp only [completionLoopAux, call_llm, hstep, List.length_cons,
          List.length_nil]
    | looping repl2 messages2 =>
      obtain ⟨d, h1, h2, h3, h4⟩ :=
        ih repl2 messages2 (iterations + 1) (log ++ [(cfg.root_model, 0)])
      refine ⟨(cfg.root_model, 0) :: d, ?_, ?_, by simpa using h3, ?_⟩
      · simp only [completionLoopAux, call_llm, hstep]
        rw [h1]
        simp
      · simp only [completionLoopAux, call_llm, hstep]
        rw [h2]
        simp only [List.length_cons]
        omega
      · intro e he
        rcases List.mem_cons.mp he with rfl | hmem
        · rfl
        · exact h4 e hmem

/-- **C6** — the amended claim. `total_calls` reports the instance's
cumulative counter, which `__init__` zeroes once per instance, not per
`completion` call: the returned value equals the count carried over from
earlier calls on the same instance plus the calls made during this
invocation — one primary (root model, depth 0) call per iteration used, and
no others (the recursive dispatcher, never being exposed, cannot add any).
(Amendment forced by the counterexample: the counter is not created at the
start of each `completion` call, so counts carry over across invocations on
the same instance.) -/
theorem claim_C6_call_counter (cfg : RLMConfig) (oracle : Nat → String)
    (execPy : ExecPy) (query : String) (context : PyVal) (log : CallLog) :
    ∃ d : CallLog,
      (completion cfg oracle execPy query context log).2 = log ++ d
      ∧ (∀ e ∈ d, e = (cfg.root_model, 0))
      ∧ d.length = (completion cfg oracle execPy query context log).1.iterations
      ∧ (completion cfg oracle execPy query context log).1.total_calls
          = log.length + (completion cfg oracle execPy query context log).1.iterations := by
  obtain ⟨d, h1, h2, h3, h4⟩ := completionLoopAux_log cfg oracle execPy
    cfg.max_iterations (REPLEnvironment.init context)
    (initialMessages cfg query context (REPLEnvironment.init context)) 0 log
  have e1 : (completion cfg oracle execPy query context log).2 = log ++ d := h1
  have e2 : (completion cfg oracle execPy query context log).1.iterations
      = 0 + d.length := h2
  have e3 : (completion cfg oracle execPy query context log).1.total_calls
      = (log ++ d).length := congrArg List.length h1
  rw [List.length_append] at e3
  exact ⟨d, e1, h4, by omega, by omega⟩

/-- **C6** — counterexample. On a second `completion` invocation on the same
instance, the second call uses one iteration (one primary call) but reports
`total_calls = 2`: the counter carried the first invocation's call over. -/
theorem claim_C6_counterexample :
    (completion cfgDefault (fun _ => "FINAL(ok)") execPyId "q" (.vStr "c")
        (completion cfgDefault (fun _ => "FINAL(ok)") execPyId "q" (.vStr "c") []).2).1.iterations
      = 1
    ∧ (completion cfgDefault (fun _ => "FINAL(ok)") execPyId "q" (.vStr "c")
        (completion cfgDefault (fun _ => "FINAL(ok)") execPyId "q" (.vStr "c") []).2).1.total_calls
      = 2
    ∧ (2 : Nat) ≠ 1 := by
  refine ⟨by rfl, by rfl, by decide⟩

/-- **C7** — confirmed. One `completion` invocation uses at most
`max_iterations` iterations and makes at most `max_iterations` primary
calls (the counter grows by at most that); and whenever the loop ends with
no terminal directive parsed (`final_answer` still `None`), the reported
answer is the explicit no-answer-within-budget sentinel, never the empty
string. -/
theorem claim_C7_iteration_budget (cfg : RLMConfig) (oracle : Nat → String)
    (execPy : ExecPy) (query : String) (context : PyVal) (log : CallLog) :
    (completion cfg oracle execPy query context log).1.iterations ≤ cfg.max_iterations
    ∧ (completion cfg oracle execPy query context log).1.total_calls
        ≤ log.length + cfg.max_iterations
    ∧ (completionFinal cfg oracle execPy query context log = none →
        (completion cfg oracle execPy query context log).1.answer
          = "No final answer provided within iteration limit"
        ∧ (completion cfg oracle execPy query context log).1.answer ≠ "") := by
  obtain ⟨d, h1, h2, h3, h4⟩ := completionLoopAux_log cfg oracle execPy
    cfg.max_iterations (REPLEnvironment.init context)
    (initialMessages cfg query context (REPLEnvironment.init context)) 0 log
  have e2 : (completion cfg oracle execPy query context log).1.iterations
      = 0 + d.length := h2
  have e3 : (completion cfg oracle execPy query context log).1.total_calls
      = (log ++ d).length := congrArg List.length h1
  rw [List.length_append] at e3
  refine ⟨by omega, by omega, ?_⟩
  intro hnone
  have ha : (completion cfg oracle execPy query context log).1.answer
      = pyOrDefault (completionFinal cfg oracle execPy query context log)
          "No final answer provided within iteration limit" := rfl
  rw [ha, hnone]
  exact ⟨rfl, by decide⟩

/-- Witness for C7: a model that never emits a directive exhausts a
2-iteration budget, and the result reports the sentinel with both
iterations used. -/
theorem claim_C7_iteration_budget_witness :
    (completion { max_iterations := 2 } (fun _ => "Still thinking about it.")
        execPyId "q" (.vStr "c") []).1.answer
      = "No final answer provided within iteration limit"
    ∧ (completion { max_iterations := 2 } (fun _ => "Still thinking about it.")
        execPyId "q" (.vStr "c") []).1.iterations ≤ 2 := by
  have h := claim_C7_iteration_budget { max_iterations := 2 }
    (fun _ => "Still thinking about it.") execPyId "q" (.vStr "c") []
  exact ⟨(h.2.2 (by rfl)).1, h.1⟩

/-- **C9** — confirmed. A response parsed as `FINAL_VAR(name)` with `name`
absent from the variable store at resolution time resolves, without any
exception path, to `str(None)`: the final answer is `"None"`, the string
form of the missing-variable sentinel `self.variables.get(name)` returns.
First conjunct: the loop step resolves such a response to the finished
answer `"None"` for every sandbox state whose store lacks the name. Second
conjunct: a whole `completion` run whose first response is such a reference
returns normally with answer `"None"`. -/
theorem claim_C9_missing_var :
    (∀ (execPy : ExecPy) (repl : REPLEnvironment) (messages : List Message)
        (response : String) (name : String),
        parseDirective response = .finalVarRef name →
        storeLookup repl.vars name = none →
        processResponse execPy repl messages response = .finished "None")
    ∧ (∀ (cfg : RLMConfig) (oracle : Nat → String) (execPy : ExecPy)
        (query : String) (context : PyVal) (log : CallLog) (name : String),
        0 < cfg.max_iterations →
        parseDirective (oracle log.length) = .finalVarRef name →
        storeLookup (REPLEnvironment.init context).vars name = none →
        (completion cfg oracle execPy query context log).1.answer = "None") := by
  have hstep : ∀ (execPy : ExecPy) (repl : REPLEnvironment) (messages : List Message)
      (response : String) (name : String),
      parseDirective response = .finalVarRef name →
      storeLookup repl.vars name = none →
      processResponse execPy repl messages response = .finished "None" := by
    intro execPy repl messages response name hp hl
    simp only [processResponse, hp, REPLEnvironment.get_variable, hl]
    rfl
  refine ⟨hstep, ?_⟩
  intro cfg oracle execPy query context log name hpos hp hl
  obtain ⟨m, hm⟩ : ∃ m, cfg.max_iterations = m + 1 :=
    ⟨cfg.max_iterations - 1, by omega⟩
  have ha : (completion cfg oracle execPy query context log).1.answer
      = pyOrDefault (completionLoopAux cfg oracle execPy cfg.max_iterations
          (REPLEnvironment.init context)
          (initialMessages cfg query context (REPLEnvironment.init context)) 0
          log).2.2.2.2
          "No final answer provided within iteration limit" := rfl
  rw [ha, hm]
  have hfin := hstep execPy (REPLEnvironment.init context)
    (initialMessages cfg query context (REPLEnvironment.init context))
    (oracle log.length) name hp hl
  simp only [completionLoopAux, call_llm, hfin]
  rfl

/-- Witness for C9: `FINAL_VAR(missing)` against a fresh store resolves the
run to the answer `"None"`. -/
theorem claim_C9_missing_var_witness :
    (completion cfgDefault (fun _ => "FINAL_VAR(missing)") execPyId "q"
        (.vStr "c") []).1.answer = "None" :=
  claim_C9_missing_var.2 cfgDefault (fun _ => "FINAL_VAR(missing)") execPyId "q"
    (.vStr "c") [] "missing" (by decide) (by decide) (by rfl)

end RLM
